import Mathlib

/-!
Shallow embedding of the RR-api image upload service (src/lib.rs, src/main.rs).

The filesystem is modelled as a partial map from path strings (lists of
characters) to byte lists.  External effects that the Rust code performs
through tokio/reqwest (file creation, writes, flush, rename, removal,
spawn_blocking of the thumbnail worker, the id drawn from the random
source) are driven by an explicit `Env` record that says which of those
operations fail for the invocation being modelled.  Functions that can
panic in Rust (`unwrap` on a failed rename, on a failed temp-file removal,
or on the join handle of the thumbnail worker) return a distinguished
`Outcome.panicked` value.
-/

namespace RRApi

abbrev Byte := Nat
abbrev Chunk := List Byte
abbrev FsPath := List Char
abbrev FS := FsPath → Option (List Byte)

def fsEmpty : FS := fun _ => none

def fsSet (fs : FS) (p : FsPath) (c : List Byte) : FS :=
  fun q => if q = p then some c else fs q

def fsRemove (fs : FS) (p : FsPath) : FS :=
  fun q => if q = p then none else fs q

/-- `std::fs::rename` semantics: the destination receives the source's
content (overwriting), the source disappears. -/
def fsRename (fs : FS) (src dst : FsPath) : FS :=
  fun q => if q = dst then fs src else if q = src then none else fs q

/-! ### Path operations (`std::path::PathBuf`)

`upload_image` builds its paths with `PathBuf::push`, `set_extension` and
`set_file_name`; these are the corresponding string-level operations.  The
generated ids are alphanumeric, so the hidden-file and `..` corner cases of
`set_extension` never arise in the modelled flows; `set_extension` is only
ever called with a non-empty extension. -/

def pathPush (base name : FsPath) : FsPath :=
  if base = [] then name
  else if base.getLast? = some '/' then base ++ name
  else base ++ '/' :: name

/-- The part of the path after the last separator (`Path::file_name`). -/
def fileNameOf (p : FsPath) : FsPath :=
  (p.reverse.takeWhile (fun c => c ≠ '/')).reverse

/-- Everything up to and including the last separator. -/
def dirPartOf (p : FsPath) : FsPath :=
  (p.reverse.dropWhile (fun c => c ≠ '/')).reverse

/-- `Path::file_stem` on a bare file name: strip the extension after the
last dot; a name whose only dot is the leading one has no extension. -/
def fileStem (name : FsPath) : FsPath :=
  match name.reverse.dropWhile (fun c => c ≠ '.') with
  | [] => name
  | [_] => name
  | _ :: stemRev => stemRev.reverse

/-- `PathBuf::set_extension` (for a non-empty new extension). -/
def setExtension (p e : FsPath) : FsPath :=
  if fileNameOf p = [] then p
  else dirPartOf p ++ fileStem (fileNameOf p) ++ '.' :: e

/-- `PathBuf::set_file_name`. -/
def setFileName (p name : FsPath) : FsPath :=
  dirPartOf p ++ name

/-! ### Error and result types (src/lib.rs) -/

/-- Which server-side I/O step produced an `io::Error`. -/
inductive IoOp where
  | create
  | write
  | flush
deriving DecidableEq

/-- `UploadError` from src/lib.rs: `Client` wraps the stream's error,
`Server` wraps a local I/O error. -/
inductive UploadError (E : Type) where
  | Client : E → UploadError E
  | Server : IoOp → UploadError E
deriving DecidableEq

structure UploadedFile where
  id : FsPath
  path : FsPath
  thumbnail_path : Option FsPath
deriving DecidableEq

/-- Result of running a fallible Rust computation: a returned `Ok`, a
returned `Err`, or a panic (an `unwrap` that hit an error). -/
inductive Outcome (ε α : Type) where
  | ok : α → Outcome ε α
  | err : ε → Outcome ε α
  | panicked : Outcome ε α
deriving DecidableEq

/-- Result of the offloaded `create_thumbnail` call: `Ok`, `Err`, or a
panic inside the worker (surfacing as a `JoinError` on the handle). -/
inductive ThumbOutcome where
  | ok
  | err
  | panicked
deriving DecidableEq

/-- The external world for one `upload_image` invocation: the id produced
by `gen_rand_id(12)` and the success or failure of each effectful step. -/
structure Env where
  id : FsPath
  createFails : Bool
  writeFails : Nat → Bool
  flushFails : Bool
  renameFails : Bool
  removeFails : Bool
  thumbOutcome : ThumbOutcome
  thumbBytes : List Byte

/-- `mime_type_to_extension` from src/lib.rs. -/
def mime_type_to_extension (mime_type : FsPath) : Option FsPath :=
  if mime_type = ("image/bmp".toList) then some ("bmp".toList)
  else if mime_type = ("image/jpeg".toList) then some ("jpg".toList)
  else if mime_type = ("image/png".toList) then some ("png".toList)
  else none

variable {E : Type}

/-- `stream_to_writer` from src/lib.rs.  The writer is modelled by the
byte list accumulated so far (`acc`) and the ordinal of the next
`write_all` call; the function returns the Rust result together with the
accumulated content and the part of the stream that was never consumed. -/
def stream_to_writer (wf : Nat → Bool) (ff : Bool) :
    List (Except E Chunk) → Nat → List Byte →
    Except (UploadError E) Unit × List Byte × List (Except E Chunk)
  | [], _, acc =>
    if ff then (Except.error (UploadError.Server IoOp.flush), acc, [])
    else (Except.ok (), acc, [])
  | Except.error e :: rest, _, acc =>
    (Except.error (UploadError.Client e), acc, rest)
  | Except.ok c :: rest, i, acc =>
    if wf i then (Except.error (UploadError.Server IoOp.write), acc, rest)
    else stream_to_writer wf ff rest (i + 1) (acc ++ c)

/-- `stream_to_file` from src/lib.rs: create/truncate the file, drain the
stream into it, and on any writer failure delete the file (`remove_file`
is followed by `unwrap`, so its failure is a panic). -/
def stream_to_file (env : Env) (stream : List (Except E Chunk)) (filename : FsPath)
    (fs : FS) : Outcome (UploadError E) Unit × FS × List (Except E Chunk) :=
  if env.createFails then (Outcome.err (UploadError.Server IoOp.create), fs, stream)
  else
    match stream_to_writer env.writeFails env.flushFails stream 0 [] with
    | (Except.ok _, acc, rest) => (Outcome.ok (), fsSet fs filename acc, rest)
    | (Except.error e, acc, rest) =>
      if env.removeFails then (Outcome.panicked, fsSet fs filename acc, rest)
      else (Outcome.err e, fsRemove fs filename, rest)

def tmpExt : FsPath := "tmp".toList

/-- The file name built by `format!("{}_thumbnail.{}", id, extension)`. -/
def thumbName (id extension : FsPath) : FsPath :=
  id ++ ("_thumbnail.".toList) ++ extension

/-- `upload_image` from src/lib.rs.  Note that both the rename of the temp
file and the join handle of the offloaded thumbnail worker are followed by
`unwrap`, so a failed rename or a crashed worker panic instead of
returning an error. -/
def upload_image (env : Env) (stream : List (Except E Chunk)) (uploads_dir : FsPath)
    (extension : FsPath) (fs : FS) :
    Outcome (UploadError E) UploadedFile × FS × List (Except E Chunk) :=
  let id := env.id
  let tmp_path := setExtension (pathPush uploads_dir id) tmpExt
  match stream_to_file env stream tmp_path fs with
  | (Outcome.err e, fs1, rest) => (Outcome.err e, fs1, rest)
  | (Outcome.panicked, fs1, rest) => (Outcome.panicked, fs1, rest)
  | (Outcome.ok _, fs1, rest) =>
    let upload_path := setExtension tmp_path extension
    if env.renameFails then (Outcome.panicked, fs1, rest)
    else
      let fs2 := fsRename fs1 tmp_path upload_path
      let thumbnail_path := setFileName upload_path (thumbName id extension)
      match env.thumbOutcome with
      | ThumbOutcome.panicked => (Outcome.panicked, fs2, rest)
      | ThumbOutcome.err =>
        (Outcome.ok { id := id, path := upload_path, thumbnail_path := none }, fs2, rest)
      | ThumbOutcome.ok =>
        (Outcome.ok { id := id, path := upload_path, thumbnail_path := some thumbnail_path },
         fsSet fs2 thumbnail_path env.thumbBytes, rest)

/-! ### The remote fetcher (src/lib.rs `fetch_image`) -/

inductive FetchError where
  | ServerReturnedError
  | UnsupportedMediaType
  | FetchFailed
deriving DecidableEq

/-- The dynamic `failure::Error` at the ingestion boundary: it wraps
either a `FetchError` or an `UploadError` (the callers in main.rs
downcast to `UploadError` to pick a status class). -/
inductive FailureError (E : Type) where
  | fetch : FetchError → FailureError E
  | upload : UploadError E → FailureError E
deriving DecidableEq

/-- The upstream HTTP response: its status class, its `Content-Type`
header (`none` when absent, `Except.error` when not parseable as a
string), and its body as a chunk stream. -/
structure HttpResponse where
  success : Bool
  contentType : Option (Except Unit FsPath)
  body : List (Except Unit Chunk)

/-- `fetch_image` from src/lib.rs; `send` is the outcome of the
`reqwest` send call. -/
def fetch_image (env : Env) (send : Except Unit HttpResponse) (uploads_dir : FsPath)
    (fs : FS) : Outcome (FailureError Unit) UploadedFile × FS :=
  match send with
  | Except.error _ => (Outcome.err (FailureError.fetch FetchError.FetchFailed), fs)
  | Except.ok response =>
    if response.success = false then
      (Outcome.err (FailureError.fetch FetchError.ServerReturnedError), fs)
    else
      match response.contentType with
      | none => (Outcome.err (FailureError.fetch FetchError.UnsupportedMediaType), fs)
      | some (Except.error _) =>
        (Outcome.err (FailureError.fetch FetchError.UnsupportedMediaType), fs)
      | some (Except.ok mime_type_str) =>
        match mime_type_to_extension mime_type_str with
        | none => (Outcome.err (FailureError.fetch FetchError.UnsupportedMediaType), fs)
        | some extension =>
          match upload_image env response.body uploads_dir extension fs with
          | (Outcome.ok f, fs1, _) => (Outcome.ok f, fs1)
          | (Outcome.err e, fs1, _) => (Outcome.err (FailureError.upload e), fs1)
          | (Outcome.panicked, fs1, _) => (Outcome.panicked, fs1)

/-! ### The request handlers (src/main.rs) -/

inductive HttpStatus where
  | ok
  | badRequest
  | internalServerError
  | unsupportedMediaType
deriving DecidableEq

structure Resp where
  status : HttpStatus
  body : List FsPath
deriving DecidableEq

/-- A handler either produces an `HttpResponse` or the handling task
panics (when an `unwrap` inside the pipeline hit an error). -/
inductive HandlerResult where
  | resp : Resp → HandlerResult
  | panicked : HandlerResult
deriving DecidableEq

/-- `uploaded_files_to_json_list` from src/main.rs: the JSON body is the
array of ids. -/
def uploaded_files_to_json_list (files : List UploadedFile) : List FsPath :=
  files.map (fun f => f.id)

/-- One multipart form field: its declared content type (raw, with any
parameters) and its chunk stream. -/
structure Field where
  contentType : FsPath
  stream : List (Except Unit Chunk)

/-- `Mime::essence_str` of the external mime crate, modelled at its
interface: the type/subtype part of the value, i.e. everything before the
first `;`, with trailing whitespace removed. -/
def essence_str (s : FsPath) : FsPath :=
  ((s.takeWhile (fun c => c ≠ ';')).reverse.dropWhile (fun c => c = ' ')).reverse

/-- The common tail of both handlers: `Ok` with the id list when at least
one file was uploaded, `BadRequest` (with the empty id list) otherwise. -/
def finishList (acc : List UploadedFile) : HandlerResult :=
  if acc = [] then
    HandlerResult.resp { status := HttpStatus.badRequest, body := uploaded_files_to_json_list acc }
  else
    HandlerResult.resp { status := HttpStatus.ok, body := uploaded_files_to_json_list acc }

/-- The `while let Ok(Some(field)) = multipart.try_next()` loop of
`upload_multipart` (src/main.rs).  `envs i` is the external world seen by
the `upload_image` call for the `i`-th field; a `try_next` error leaves
the loop (falling through to the final response). -/
def upload_multipart_go (envs : Nat → Env) (dir : FsPath) :
    List (Except Unit Field) → Nat → List UploadedFile → FS → HandlerResult × FS
  | [], _, acc, fs => (finishList acc, fs)
  | Except.error _ :: _, _, acc, fs => (finishList acc, fs)
  | Except.ok field :: rest, i, acc, fs =>
    match mime_type_to_extension (essence_str field.contentType) with
    | none =>
      (HandlerResult.resp { status := HttpStatus.unsupportedMediaType,
                            body := uploaded_files_to_json_list acc }, fs)
    | some extension =>
      match upload_image (envs i) field.stream dir extension fs with
      | (Outcome.panicked, fs1, _) => (HandlerResult.panicked, fs1)
      | (Outcome.err (UploadError.Client _), fs1, _) =>
        (HandlerResult.resp { status := HttpStatus.badRequest,
                              body := uploaded_files_to_json_list acc }, fs1)
      | (Outcome.err (UploadError.Server _), fs1, _) =>
        (HandlerResult.resp { status := HttpStatus.internalServerError,
                              body := uploaded_files_to_json_list acc }, fs1)
      | (Outcome.ok f, fs1, _) => upload_multipart_go envs dir rest (i + 1) (acc ++ [f]) fs1

def upload_multipart (envs : Nat → Env) (dir : FsPath)
    (multipart : List (Except Unit Field)) (fs : FS) : HandlerResult × FS :=
  upload_multipart_go envs dir multipart 0 [] fs

/-- One item of the JSON batch body.  A `url` item carries the outcome of
the `reqwest` send for that url; a `base64` item carries the outcome of
`base64::decode` on its payload. -/
inductive UploadRequest where
  | url : Except Unit HttpResponse → UploadRequest
  | base64 : Except Unit (List Byte) → UploadRequest

/-- The item loop of `upload_json` (src/main.rs).  `sniff` is the
external `tree_magic::from_u8` magic-byte detector; `upload_image` for a
base64 item consumes the single-chunk stream `once(Ok(data))`. -/
def upload_json_go (envs : Nat → Env) (sniff : List Byte → FsPath) (dir : FsPath) :
    List UploadRequest → Nat → List UploadedFile → FS → HandlerResult × FS
  | [], _, acc, fs => (finishList acc, fs)
  | UploadRequest.url send :: rest, i, acc, fs =>
    match fetch_image (envs i) send dir fs with
    | (Outcome.panicked, fs1) => (HandlerResult.panicked, fs1)
    | (Outcome.err (FailureError.upload (UploadError.Client _)), fs1) =>
      (HandlerResult.resp { status := HttpStatus.badRequest,
                            body := uploaded_files_to_json_list acc }, fs1)
    | (Outcome.err _, fs1) =>
      (HandlerResult.resp { status := HttpStatus.internalServerError,
                            body := uploaded_files_to_json_list acc }, fs1)
    | (Outcome.ok f, fs1) => upload_json_go envs sniff dir rest (i + 1) (acc ++ [f]) fs1
  | UploadRequest.base64 dec :: rest, i, acc, fs =>
    match dec with
    | Except.error _ =>
      (HandlerResult.resp { status := HttpStatus.badRequest,
                            body := uploaded_files_to_json_list acc }, fs)
    | Except.ok data =>
      match mime_type_to_extension (sniff data) with
      | none =>
        (HandlerResult.resp { status := HttpStatus.unsupportedMediaType,
                              body := uploaded_files_to_json_list acc }, fs)
      | some extension =>
        match upload_image (envs i) ([Except.ok data] : List (Except Unit Chunk)) dir extension fs with
        | (Outcome.panicked, fs1, _) => (HandlerResult.panicked, fs1)
        | (Outcome.err (UploadError.Client _), fs1, _) =>
          (HandlerResult.resp { status := HttpStatus.badRequest,
                                body := uploaded_files_to_json_list acc }, fs1)
        | (Outcome.err (UploadError.Server _), fs1, _) =>
          (HandlerResult.resp { status := HttpStatus.internalServerError,
                                body := uploaded_files_to_json_list acc }, fs1)
        | (Outcome.ok f, fs1, _) => upload_json_go envs sniff dir rest (i + 1) (acc ++ [f]) fs1

def upload_json (envs : Nat → Env) (sniff : List Byte → FsPath) (dir : FsPath)
    (req : List UploadRequest) (fs : FS) : HandlerResult × FS :=
  upload_json_go envs sniff dir req 0 [] fs

/-! ### Auxiliary notions used by the statements -/

def isOkChunk : Except E Chunk → Bool
  | Except.ok _ => true
  | Except.error _ => false

/-- Every element of the stream is a successfully read chunk. -/
def allOk (l : List (Except E Chunk)) : Bool := l.all isOkChunk

/-- The concatenation, in order, of the stream's successful chunks (for a
stream satisfying `allOk`, of all its chunks). -/
def okChunksJoin : List (Except E Chunk) → List Byte
  | [] => []
  | Except.ok c :: rest => c ++ okChunksJoin rest
  | Except.error _ :: rest => okChunksJoin rest

/-! ### Helper lemmas about list splitting -/

theorem takeWhile_append_all {α : Type} (p : α → Bool) (l₁ l₂ : List α)
    (h : ∀ x ∈ l₁, p x = true) :
    (l₁ ++ l₂).takeWhile p = l₁ ++ l₂.takeWhile p := by
  induction l₁ with
  | nil => simp
  | cons a t ih =>
    simp only [List.cons_append, List.takeWhile_cons, h a (List.mem_cons_self a t), if_true]
    rw [ih (fun x hx => h x (List.mem_cons_of_mem _ hx))]

theorem dropWhile_append_all {α : Type} (p : α → Bool) (l₁ l₂ : List α)
    (h : ∀ x ∈ l₁, p x = true) :
    (l₁ ++ l₂).dropWhile p = l₂.dropWhile p := by
  induction l₁ with
  | nil => simp
  | cons a t ih =>
    simp only [List.cons_append, List.dropWhile_cons, h a (List.mem_cons_self a t), if_true]
    exact ih (fun x hx => h x (List.mem_cons_of_mem _ hx))

theorem append_ne_of_ne {α : Type} (l a b : List α) (h : a ≠ b) : l ++ a ≠ l ++ b :=
  fun hEq => h (List.append_cancel_left hEq)

/-! ### Path computation lemmas -/

theorem pathPush_eq (dir name : FsPath) (hdir : dir ≠ [])
    (hlast : dir.getLast? ≠ some '/') :
    pathPush dir name = dir ++ '/' :: name := by
  unfold pathPush
  rw [if_neg hdir, if_neg hlast]

theorem fileNameOf_append (dir name : FsPath) (h : '/' ∉ name) :
    fileNameOf (dir ++ '/' :: name) = name := by
  unfold fileNameOf
  rw [List.reverse_append, List.reverse_cons, List.append_assoc,
    takeWhile_append_all _ name.reverse _ ?_]
  · simp [List.takeWhile_cons]
  · intro x hx
    have hxname : x ∈ name := List.mem_reverse.mp hx
    exact decide_eq_true (fun hEq => h (hEq ▸ hxname))

theorem dirPartOf_append (dir name : FsPath) (h : '/' ∉ name) :
    dirPartOf (dir ++ '/' :: name) = dir ++ ['/'] := by
  unfold dirPartOf
  rw [List.reverse_append, List.reverse_cons, List.append_assoc,
    dropWhile_append_all _ name.reverse _ ?_]
  · simp [List.dropWhile_cons]
  · intro x hx
    have hxname : x ∈ name := List.mem_reverse.mp hx
    exact decide_eq_true (fun hEq => h (hEq ▸ hxname))

theorem fileStem_nodot (name : FsPath) (h : '.' ∉ name) : fileStem name = name := by
  unfold fileStem
  have : name.reverse.dropWhile (fun c => c ≠ '.') = [] := by
    rw [List.dropWhile_eq_nil_iff]
    intro x hx
    exact decide_eq_true (fun hEq => h (hEq ▸ List.mem_reverse.mp hx))
  rw [this]

theorem fileStem_ext (stem ext : FsPath) (hstem : stem ≠ []) (hext : '.' ∉ ext) :
    fileStem (stem ++ '.' :: ext) = stem := by
  unfold fileStem
  rw [List.reverse_append, List.reverse_cons, List.append_assoc,
    dropWhile_append_all _ ext.reverse _ ?_]
  · have hcons : (['.'] ++ stem.reverse).dropWhile (fun c => c ≠ '.') = '.' :: stem.reverse := by
      simp [List.dropWhile_cons]
    rw [hcons]
    match hrev : stem.reverse with
    | [] => exact absurd (by simpa using congrArg List.reverse hrev) hstem
    | y :: ys => simp [← hrev]
  · intro x hx
    exact decide_eq_true (fun hEq => hext (hEq ▸ List.mem_reverse.mp hx))

theorem setExtension_push (dir id e : FsPath)
    (hdir : dir ≠ []) (hlast : dir.getLast? ≠ some '/')
    (hid : id ≠ []) (hdot : '.' ∉ id) (hslash : '/' ∉ id) :
    setExtension (pathPush dir id) e = dir ++ '/' :: (id ++ '.' :: e) := by
  rw [pathPush_eq dir id hdir hlast]
  unfold setExtension
  rw [fileNameOf_append dir id hslash, dirPartOf_append dir id hslash, if_neg hid,
    fileStem_nodot id hdot]
  simp [List.append_assoc]

theorem setExtension_replace (dir id old e : FsPath)
    (hid : id ≠ []) (hslashid : '/' ∉ id)
    (hslasho : '/' ∉ old) (hdoto : '.' ∉ old) :
    setExtension (dir ++ '/' :: (id ++ '.' :: old)) e = dir ++ '/' :: (id ++ '.' :: e) := by
  have hname : '/' ∉ id ++ '.' :: old := by
    intro hmem
    rcases List.mem_append.mp hmem with h | h
    · exact hslashid h
    · rcases List.mem_cons.mp h with h | h
      · exact absurd h.symm (by decide)
      · exact hslasho h
  unfold setExtension
  rw [fileNameOf_append dir _ hname, dirPartOf_append dir _ hname]
  rw [if_neg (by simp [hid]), fileStem_ext id old hid hdoto]
  simp [List.append_assoc]

theorem setFileName_append (dir name new : FsPath) (h : '/' ∉ name) :
    setFileName (dir ++ '/' :: name) new = dir ++ '/' :: new := by
  unfold setFileName
  rw [dirPartOf_append dir name h]
  simp [List.append_assoc]

/-! ### Behaviour of the streaming writer -/

theorem stream_to_writer_all_ok (wf : Nat → Bool) (hwf : ∀ i, wf i = false) :
    ∀ (s : List (Except E Chunk)), allOk s = true → ∀ (i : Nat) (acc : List Byte),
      stream_to_writer wf false s i acc = (Except.ok (), acc ++ okChunksJoin s, []) := by
  intro s
  induction s with
  | nil => intro _ i acc; simp [stream_to_writer, okChunksJoin]
  | cons x rest ih =>
    intro hs i acc
    match x with
    | Except.error e => simp [allOk, isOkChunk] at hs
    | Except.ok c =>
      have hs' : allOk rest = true := by simpa [allOk, isOkChunk] using hs
      simp [stream_to_writer, hwf i, okChunksJoin, ih hs', List.append_assoc]

theorem stream_to_writer_err (wf : Nat → Bool) (ff : Bool) :
    ∀ (s : List (Except E Chunk)) (i : Nat) (acc : List Byte)
      (e : UploadError E) (acc1 : List Byte) (rem : List (Except E Chunk)),
      stream_to_writer wf ff s i acc = (Except.error e, acc1, rem) →
      (∃ e0 pre, e = UploadError.Client e0 ∧ s = pre ++ Except.error e0 :: rem ∧ allOk pre = true)
      ∨ (∃ c pre, e = UploadError.Server IoOp.write ∧ s = pre ++ Except.ok c :: rem ∧
          allOk pre = true)
      ∨ (e = UploadError.Server IoOp.flush ∧ rem = []) := by
  intro s
  induction s with
  | nil =>
    intro i acc e acc1 rem h
    cases hff : ff <;> simp [stream_to_writer, hff] at h
    exact Or.inr (Or.inr ⟨h.1.symm, h.2.2⟩)
  | cons x rest ih =>
    intro i acc e acc1 rem h
    match x with
    | Except.error e0 =>
      simp [stream_to_writer] at h
      refine Or.inl ⟨e0, [], h.1.symm, ?_, rfl⟩
      simp [h.2.2.symm]
    | Except.ok c =>
      by_cases hwf : wf i = true
      · simp [stream_to_writer, hwf] at h
        refine Or.inr (Or.inl ⟨c, [], h.1.symm, ?_, rfl⟩)
        simp [h.2.2.symm]
      · rw [Bool.not_eq_true] at hwf
        have h' := h
        rw [show stream_to_writer wf ff (Except.ok c :: rest) i acc
            = stream_to_writer wf ff rest (i + 1) (acc ++ c) by
          simp [stream_to_writer, hwf]] at h'
        rcases ih (i + 1) (acc ++ c) e acc1 rem h' with ⟨e0, pre, h1, h2, h3⟩ |
          ⟨c0, pre, h1, h2, h3⟩ | ⟨h1, h2⟩
        · exact Or.inl ⟨e0, Except.ok c :: pre, h1, by simp [h2],
            by simpa [allOk, isOkChunk] using h3⟩
        · exact Or.inr (Or.inl ⟨c0, Except.ok c :: pre, h1, by simp [h2],
            by simpa [allOk, isOkChunk] using h3⟩)
        · exact Or.inr (Or.inr ⟨h1, h2⟩)

theorem stream_to_file_all_ok (env : Env) (s : List (Except E Chunk)) (filename : FsPath)
    (fs : FS) (hc : env.createFails = false) (hw : ∀ i, env.writeFails i = false)
    (hf : env.flushFails = false) (hs : allOk s = true) :
    stream_to_file env s filename fs
      = (Outcome.ok (), fsSet fs filename (okChunksJoin s), []) := by
  unfold stream_to_file
  rw [hc, hf, stream_to_writer_all_ok env.writeFails hw s hs 0 []]
  simp

/-! ### Behaviour of the ingestion pipeline on a fault-free run -/

/-- Shared success lemma: with a fault-free environment, an alphanumeric
id, a normal uploads directory and a dot-free extension other than `tmp`,
`upload_image` commits `{uploads_dir}/{id}.{extension}` with the
concatenated stream content, fully drains the stream, and returns `Ok`. -/
theorem upload_image_all_ok_spec (env : Env) (s : List (Except E Chunk)) (dir ext : FsPath)
    (fs : FS)
    (hdir : dir ≠ []) (hlast : dir.getLast? ≠ some '/')
    (hid : env.id ≠ []) (hdot : '.' ∉ env.id) (hslash : '/' ∉ env.id)
    (heslash : '/' ∉ ext) (hetmp : ext ≠ tmpExt)
    (hc : env.createFails = false) (hw : ∀ i, env.writeFails i = false)
    (hf : env.flushFails = false) (hr : env.renameFails = false)
    (ht : env.thumbOutcome ≠ ThumbOutcome.panicked)
    (hs : allOk s = true) :
    ∃ f : UploadedFile,
      (upload_image env s dir ext fs).1 = Outcome.ok f ∧
      f.id = env.id ∧
      f.path = dir ++ '/' :: (env.id ++ '.' :: ext) ∧
      (upload_image env s dir ext fs).2.1 (dir ++ '/' :: (env.id ++ '.' :: ext))
        = some (okChunksJoin s) ∧
      (upload_image env s dir ext fs).2.2 = [] := by
  have htmp : setExtension (pathPush dir env.id) tmpExt
      = dir ++ '/' :: (env.id ++ '.' :: tmpExt) :=
    setExtension_push dir env.id tmpExt hdir hlast hid hdot hslash
  have hup : setExtension (dir ++ '/' :: (env.id ++ '.' :: tmpExt)) ext
      = dir ++ '/' :: (env.id ++ '.' :: ext) :=
    setExtension_replace dir env.id tmpExt ext hid hslash (by decide) (by decide)
  have hslashname : '/' ∉ env.id ++ '.' :: ext := by
    intro hmem
    rcases List.mem_append.mp hmem with hmem | hmem
    · exact hslash hmem
    · rcases List.mem_cons.mp hmem with hmem | hmem
      · exact absurd hmem.symm (by decide)
      · exact heslash hmem
  have hthumb : setFileName (dir ++ '/' :: (env.id ++ '.' :: ext)) (thumbName env.id ext)
      = dir ++ '/' :: thumbName env.id ext :=
    setFileName_append dir _ _ hslashname
  have hre : ∀ t : FsPath, dir ++ '/' :: (env.id ++ t) = (dir ++ '/' :: env.id) ++ t := by
    intro t; simp
  have hne_up_tmp : dir ++ '/' :: (env.id ++ '.' :: ext)
      ≠ dir ++ '/' :: (env.id ++ '.' :: tmpExt) := by
    rw [hre, hre]
    exact append_ne_of_ne _ _ _ (fun hEq => hetmp (List.cons.inj hEq).2)
  have hne_up_thumb : dir ++ '/' :: (env.id ++ '.' :: ext)
      ≠ dir ++ '/' :: thumbName env.id ext := by
    have h1 : dir ++ '/' :: thumbName env.id ext
        = (dir ++ '/' :: env.id) ++ '_' :: (("thumbnail.".toList) ++ ext) := by
      simp [thumbName]
    rw [h1, hre ('.' :: ext)]
    exact append_ne_of_ne _ _ _ (fun hEq => absurd (List.cons.inj hEq).1 (by decide))
  simp only [upload_image]
  rw [htmp, stream_to_file_all_ok env s _ fs hc hw hf hs, hr]
  rcases hto : env.thumbOutcome with _ | _ | _
  case panicked => exact absurd hto ht
  case err =>
    refine ⟨⟨env.id, dir ++ '/' :: (env.id ++ '.' :: ext), none⟩, ?_, rfl, rfl, ?_, ?_⟩
    · simp [hup]
    · simp [hup, fsRename, fsSet, hne_up_tmp]
    · simp
  case ok =>
    refine ⟨⟨env.id, dir ++ '/' :: (env.id ++ '.' :: ext),
      some (dir ++ '/' :: thumbName env.id ext)⟩, ?_, rfl, rfl, ?_, ?_⟩
    · simp [hup, hthumb]
    · simp [hup, hthumb, fsRename, fsSet, hne_up_tmp, hne_up_thumb, hne_up_thumb.symm]
    · simp

/-! ### Claim C1 -/

/-- **C1**: for every finite chunk stream whose chunks all succeed and
every supported extension, `upload_image` (run in an environment whose
local I/O does not fault and whose generated id is a non-empty
alphanumeric string) returns `Ok` with a primary artifact at
`{uploads_dir}/{id}.{extension}` whose byte content equals the
concatenation, in order, of the stream's chunks. -/
theorem C1_upload_image_content (env : Env) (s : List (Except E Chunk)) (dir ext : FsPath)
    (fs : FS)
    (hdir : dir ≠ []) (hlast : dir.getLast? ≠ some '/')
    (hid : env.id ≠ []) (hdot : '.' ∉ env.id) (hslash : '/' ∉ env.id)
    (hext : ext = ("bmp".toList) ∨ ext = ("jpg".toList) ∨ ext = ("png".toList))
    (hc : env.createFails = false) (hw : ∀ i, env.writeFails i = false)
    (hf : env.flushFails = false) (hr : env.renameFails = false)
    (ht : env.thumbOutcome ≠ ThumbOutcome.panicked)
    (hs : allOk s = true) :
    ∃ f : UploadedFile,
      (upload_image env s dir ext fs).1 = Outcome.ok f ∧
      f.id = env.id ∧
      f.path = dir ++ '/' :: (env.id ++ '.' :: ext) ∧
      (upload_image env s dir ext fs).2.1 f.path = some (okChunksJoin s) := by
  have heslash : '/' ∉ ext := by rcases hext with h | h | h <;> subst h <;> decide
  have hetmp : ext ≠ tmpExt := by rcases hext with h | h | h <;> subst h <;> decide
  obtain ⟨f, h1, h2, h3, h4, _⟩ := upload_image_all_ok_spec env s dir ext fs hdir hlast
    hid hdot hslash heslash hetmp hc hw hf hr ht hs
  exact ⟨f, h1, h2, h3, by rw [h3]; exact h4⟩

/-- A fault-free environment with a fixed 12-character alphanumeric id,
used to instantiate the hypotheses of the claims at concrete inputs. -/
def envGood : Env :=
  { id := "abcdefghijkl".toList, createFails := false, writeFails := fun _ => false,
    flushFails := false, renameFails := false, removeFails := false,
    thumbOutcome := ThumbOutcome.err, thumbBytes := [] }

theorem C1_upload_image_content_witness :
    ∃ f : UploadedFile,
      (upload_image envGood
        ([Except.ok ([1, 2] : Chunk), Except.ok [3]] : List (Except Unit Chunk))
        ("up".toList) ("png".toList) fsEmpty).1 = Outcome.ok f ∧
      f.id = envGood.id ∧
      f.path = ("up".toList) ++ '/' :: (envGood.id ++ '.' :: ("png".toList)) ∧
      (upload_image envGood
        ([Except.ok ([1, 2] : Chunk), Except.ok [3]] : List (Except Unit Chunk))
        ("up".toList) ("png".toList) fsEmpty).2.1 f.path
        = some (okChunksJoin ([Except.ok ([1, 2] : Chunk), Except.ok [3]]
            : List (Except Unit Chunk))) :=
  C1_upload_image_content envGood _ _ _ fsEmpty (by decide) (by decide) (by decide)
    (by decide) (by decide) (Or.inr (Or.inr rfl)) rfl (fun _ => rfl) rfl rfl
    (by decide) (by decide)

/-! ### Claim C8 -/

/-- **C8**: for a stream that yields zero chunks, `upload_image` (again
with fault-free local I/O) returns `Ok` and commits a zero-byte primary
artifact; the empty stream is not rejected. -/
theorem C8_upload_image_empty_stream (env : Env) (dir ext : FsPath) (fs : FS)
    (hdir : dir ≠ []) (hlast : dir.getLast? ≠ some '/')
    (hid : env.id ≠ []) (hdot : '.' ∉ env.id) (hslash : '/' ∉ env.id)
    (hext : ext = ("bmp".toList) ∨ ext = ("jpg".toList) ∨ ext = ("png".toList))
    (hc : env.createFails = false) (hw : ∀ i, env.writeFails i = false)
    (hf : env.flushFails = false) (hr : env.renameFails = false)
    (ht : env.thumbOutcome ≠ ThumbOutcome.panicked) :
    ∃ f : UploadedFile,
      (upload_image env ([] : List (Except Unit Chunk)) dir ext fs).1 = Outcome.ok f ∧
      f.path = dir ++ '/' :: (env.id ++ '.' :: ext) ∧
      (upload_image env ([] : List (Except Unit Chunk)) dir ext fs).2.1 f.path
        = some ([] : List Byte) := by
  have heslash : '/' ∉ ext := by rcases hext with h | h | h <;> subst h <;> decide
  have hetmp : ext ≠ tmpExt := by rcases hext with h | h | h <;> subst h <;> decide
  obtain ⟨f, h1, _, h3, h4, _⟩ := upload_image_all_ok_spec env
    ([] : List (Except Unit Chunk)) dir ext fs hdir hlast
    hid hdot hslash heslash hetmp hc hw hf hr ht rfl
  exact ⟨f, h1, h3, by rw [h3]; exact h4⟩

theorem C8_upload_image_empty_stream_witness :
    ∃ f : UploadedFile,
      (upload_image envGood ([] : List (Except Unit Chunk))
        ("up".toList) ("jpg".toList) fsEmpty).1 = Outcome.ok f ∧
      f.path = ("up".toList) ++ '/' :: (envGood.id ++ '.' :: ("jpg".toList)) ∧
      (upload_image envGood ([] : List (Except Unit Chunk))
        ("up".toList) ("jpg".toList) fsEmpty).2.1 f.path = some ([] : List Byte) :=
  C8_upload_image_empty_stream envGood _ _ fsEmpty (by decide) (by decide) (by decide)
    (by decide) (by decide) (Or.inr (Or.inl rfl)) rfl (fun _ => rfl) rfl rfl (by decide)

/-! ### Claim C2 -/

/-- **C2**: for every invocation of `upload_image` that returns (with
`Ok` or `Err`, i.e. does not panic), no file named `{id}.tmp` for the
generated id exists in the uploads directory afterwards — given that the
generated id is fresh (no such file existed beforehand), is a non-empty
alphanumeric string, and the extension is one of the supported ones. -/
theorem C2_no_tmp_after_return (env : Env) (s : List (Except E Chunk)) (dir ext : FsPath)
    (fs : FS)
    (hdir : dir ≠ []) (hlast : dir.getLast? ≠ some '/')
    (hid : env.id ≠ []) (hdot : '.' ∉ env.id) (hslash : '/' ∉ env.id)
    (hext : ext = ("bmp".toList) ∨ ext = ("jpg".toList) ∨ ext = ("png".toList))
    (h0 : fs (dir ++ '/' :: (env.id ++ '.' :: tmpExt)) = none)
    (hret : (upload_image env s dir ext fs).1 ≠ Outcome.panicked) :
    (upload_image env s dir ext fs).2.1 (dir ++ '/' :: (env.id ++ '.' :: tmpExt)) = none := by
  have hetmp : ext ≠ tmpExt := by rcases hext with h | h | h <;> subst h <;> decide
  have htmp : setExtension (pathPush dir env.id) tmpExt
      = dir ++ '/' :: (env.id ++ '.' :: tmpExt) :=
    setExtension_push dir env.id tmpExt hdir hlast hid hdot hslash
  have hup : setExtension (dir ++ '/' :: (env.id ++ '.' :: tmpExt)) ext
      = dir ++ '/' :: (env.id ++ '.' :: ext) :=
    setExtension_replace dir env.id tmpExt ext hid hslash (by decide) (by decide)
  have hre : ∀ t : FsPath, dir ++ '/' :: (env.id ++ t) = (dir ++ '/' :: env.id) ++ t := by
    intro t; simp
  have hne_tmp_up : dir ++ '/' :: (env.id ++ '.' :: tmpExt)
      ≠ dir ++ '/' :: (env.id ++ '.' :: ext) := by
    rw [hre, hre]
    exact append_ne_of_ne _ _ _ (fun hEq => hetmp ((List.cons.inj hEq).2).symm)
  have hne_tmp_thumb : dir ++ '/' :: (env.id ++ '.' :: tmpExt)
      ≠ dir ++ '/' :: thumbName env.id ext := by
    have h1 : dir ++ '/' :: thumbName env.id ext
        = (dir ++ '/' :: env.id) ++ '_' :: (("thumbnail.".toList) ++ ext) := by
      simp [thumbName]
    rw [h1, hre ('.' :: tmpExt)]
    exact append_ne_of_ne _ _ _ (fun hEq => absurd (List.cons.inj hEq).1 (by decide))
  by_cases hcf : env.createFails = true
  · have hU : upload_image env s dir ext fs
        = (Outcome.err (UploadError.Server IoOp.create), fs, s) := by
      simp [upload_image, htmp, stream_to_file, hcf]
    rw [hU]
    exact h0
  · rw [Bool.not_eq_true] at hcf
    rcases hsw : stream_to_writer env.writeFails env.flushFails s 0 [] with ⟨r, acc, rem⟩
    cases r with
    | error e =>
      by_cases hrm : env.removeFails = true
      · have hU : upload_image env s dir ext fs
            = (Outcome.panicked, fsSet fs (dir ++ '/' :: (env.id ++ '.' :: tmpExt)) acc, rem) := by
          simp [upload_image, htmp, stream_to_file, hcf, hsw, hrm]
        rw [hU] at hret
        exact absurd rfl hret
      · rw [Bool.not_eq_true] at hrm
        have hU : upload_image env s dir ext fs
            = (Outcome.err e, fsRemove fs (dir ++ '/' :: (env.id ++ '.' :: tmpExt)), rem) := by
          simp [upload_image, htmp, stream_to_file, hcf, hsw, hrm]
        rw [hU]
        simp [fsRemove]
    | ok u =>
      by_cases hrf : env.renameFails = true
      · have hU : upload_image env s dir ext fs
            = (Outcome.panicked, fsSet fs (dir ++ '/' :: (env.id ++ '.' :: tmpExt)) acc, rem) := by
          simp [upload_image, htmp, stream_to_file, hcf, hsw, hrf]
        rw [hU] at hret
        exact absurd rfl hret
      · rw [Bool.not_eq_true] at hrf
        cases hto : env.thumbOutcome with
        | panicked =>
          have hU : (upload_image env s dir ext fs).1 = Outcome.panicked := by
            simp [upload_image, htmp, stream_to_file, hcf, hsw, hrf, hto]
          exact absurd hU hret
        | err =>
          have hU : upload_image env s dir ext fs
              = (Outcome.ok ⟨env.id, dir ++ '/' :: (env.id ++ '.' :: ext), none⟩,
                 fsRename (fsSet fs (dir ++ '/' :: (env.id ++ '.' :: tmpExt)) acc)
                   (dir ++ '/' :: (env.id ++ '.' :: tmpExt))
                   (dir ++ '/' :: (env.id ++ '.' :: ext)), rem) := by
            simp [upload_image, htmp, hup, stream_to_file, hcf, hsw, hrf, hto]
          rw [hU]
          simp [fsRename, fsSet, hne_tmp_up]
        | ok =>
          have hU : upload_image env s dir ext fs
              = (Outcome.ok ⟨env.id, dir ++ '/' :: (env.id ++ '.' :: ext),
                   some (dir ++ '/' :: thumbName env.id ext)⟩,
                 fsSet
                   (fsRename (fsSet fs (dir ++ '/' :: (env.id ++ '.' :: tmpExt)) acc)
                     (dir ++ '/' :: (env.id ++ '.' :: tmpExt))
                     (dir ++ '/' :: (env.id ++ '.' :: ext)))
                   (dir ++ '/' :: thumbName env.id ext) env.thumbBytes, rem) := by
            have hslashname : '/' ∉ env.id ++ '.' :: ext := by
              intro hmem
              rcases List.mem_append.mp hmem with hmem | hmem
              · exact hslash hmem
              · rcases List.mem_cons.mp hmem with hmem | hmem
                · exact absurd hmem.symm (by decide)
                · rcases hext with h | h | h <;> subst h <;> revert hmem <;> decide
            have hthumb : setFileName (dir ++ '/' :: (env.id ++ '.' :: ext))
                  (thumbName env.id ext)
                = dir ++ '/' :: thumbName env.id ext :=
              setFileName_append dir _ _ hslashname
            simp [upload_image, htmp, hup, hthumb, stream_to_file, hcf, hsw, hrf, hto]
          rw [hU]
          simp [fsRename, fsSet, hne_tmp_up, hne_tmp_thumb]

theorem C2_no_tmp_after_return_witness :
    (upload_image envGood ([Except.ok ([5] : Chunk)] : List (Except Unit Chunk))
      ("up".toList) ("bmp".toList) fsEmpty).2.1
      (("up".toList) ++ '/' :: (envGood.id ++ '.' :: tmpExt)) = none :=
  C2_no_tmp_after_return envGood _ _ _ fsEmpty (by decide) (by decide) (by decide)
    (by decide) (by decide) (Or.inl rfl) rfl (by decide)

/-! ### Claim C3 (corrected) -/

/-- A fault-free environment except that the rename of the temp file to
its final name fails. -/
def envRenameFail : Env :=
  { id := "abcdefghijkl".toList, createFails := false, writeFails := fun _ => false,
    flushFails := false, renameFails := true, removeFails := false,
    thumbOutcome := ThumbOutcome.ok, thumbBytes := [] }

/-- **C3**, counterexample: at a concrete input whose rename fails,
`upload_image` panics (the `unwrap` on `tokio::fs::rename` aborts the
task); it does not return `Err(UploadError::Server)` as the claim
states. -/
theorem C3_rename_fail_cex :
    (upload_image envRenameFail ([Except.ok ([1] : Chunk)] : List (Except Unit Chunk))
      ("up".toList) ("png".toList) fsEmpty).1 = Outcome.panicked := by decide

/-- **C3** (amended): if the atomic rename of `{id}.tmp` to
`{id}.{extension}` fails, `upload_image` panics — the failure aborts the
task through the `unwrap` on the rename result instead of being returned
to the caller as `UploadError::Server`. -/
theorem C3_rename_fail_panics (env : Env) (s : List (Except E Chunk)) (dir ext : FsPath)
    (fs : FS)
    (hc : env.createFails = false) (hw : ∀ i, env.writeFails i = false)
    (hf : env.flushFails = false) (hs : allOk s = true)
    (hr : env.renameFails = true) :
    (upload_image env s dir ext fs).1 = Outcome.panicked := by
  have h1 := stream_to_file_all_ok env s (setExtension (pathPush dir env.id) tmpExt) fs
    hc hw hf hs
  simp [upload_image, h1, hr]

theorem C3_rename_fail_panics_witness :
    (upload_image envRenameFail ([Except.ok ([2] : Chunk)] : List (Except Unit Chunk))
      ("up".toList) ("jpg".toList) fsEmpty).1 = Outcome.panicked :=
  C3_rename_fail_panics envRenameFail _ _ _ fsEmpty rfl (fun _ => rfl) rfl (by decide) rfl

/-! ### Claim C4 (corrected) -/

/-- A fault-free environment in which the offloaded thumbnail worker
crashes (its join handle yields a `JoinError`). -/
def envThumbPanic : Env :=
  { id := "abcdefghijkl".toList, createFails := false, writeFails := fun _ => false,
    flushFails := false, renameFails := false, removeFails := false,
    thumbOutcome := ThumbOutcome.panicked, thumbBytes := [] }

/-- **C4**, counterexample: at a concrete input whose rename succeeded
but whose offloaded thumbnail worker crashed, `upload_image` panics (the
`unwrap` on the join handle) instead of returning
`Ok` with `thumbnail_path = None` as the claim states. -/
theorem C4_thumb_crash_cex :
    (upload_image envThumbPanic ([Except.ok ([3] : Chunk)] : List (Except Unit Chunk))
      ("up".toList) ("png".toList) fsEmpty).1 = Outcome.panicked := by decide

/-- **C4** (amended): after a successful rename, a derivation failure
*returned* by `create_thumbnail` is absorbed — `upload_image` returns
`Ok` with `thumbnail_path = None`; but a crash or panic of the offloaded
worker is not absorbed: the ingestion panics via the `unwrap` on the join
handle instead of returning `Ok`. -/
theorem C4_thumbnail_outcomes (env : Env) (s : List (Except E Chunk)) (dir ext : FsPath)
    (fs : FS)
    (hc : env.createFails = false) (hw : ∀ i, env.writeFails i = false)
    (hf : env.flushFails = false) (hs : allOk s = true)
    (hr : env.renameFails = false) :
    (env.thumbOutcome = ThumbOutcome.err →
      ∃ f : UploadedFile, (upload_image env s dir ext fs).1 = Outcome.ok f ∧
        f.thumbnail_path = none)
    ∧ (env.thumbOutcome = ThumbOutcome.panicked →
      (upload_image env s dir ext fs).1 = Outcome.panicked) := by
  have h1 := stream_to_file_all_ok env s (setExtension (pathPush dir env.id) tmpExt) fs
    hc hw hf hs
  constructor
  · intro hto
    refine ⟨⟨env.id, setExtension (setExtension (pathPush dir env.id) tmpExt) ext, none⟩,
      ?_, rfl⟩
    simp [upload_image, h1, hr, hto]
  · intro hto
    simp [upload_image, h1, hr, hto]

theorem C4_thumbnail_outcomes_witness :
    (envGood.thumbOutcome = ThumbOutcome.err →
      ∃ f : UploadedFile,
        (upload_image envGood ([Except.ok ([4] : Chunk)] : List (Except Unit Chunk))
          ("up".toList) ("png".toList) fsEmpty).1 = Outcome.ok f ∧
        f.thumbnail_path = none)
    ∧ (envGood.thumbOutcome = ThumbOutcome.panicked →
      (upload_image envGood ([Except.ok ([4] : Chunk)] : List (Except Unit Chunk))
        ("up".toList) ("png".toList) fsEmpty).1 = Outcome.panicked) :=
  C4_thumbnail_outcomes envGood _ _ _ fsEmpty rfl (fun _ => rfl) rfl (by decide) rfl

/-! ### Claim C5 -/

/-- **C5**: if `stream_to_file` returns an error (the cleanup
`remove_file` succeeding — its failure panics instead of returning — and
the destination being fresh), then: the destination file does not exist
afterwards; no chunk past the failing step was consumed (the unconsumed
remainder of the stream is exactly the suffix after the failing element);
and the error is tagged `UploadError::Client` exactly when the failing
step was a chunk read, `UploadError::Server` when it was the file
creation, a write, or the flush. -/
theorem C5_stream_to_file_failure (env : Env) (s : List (Except E Chunk)) (filename : FsPath)
    (fs : FS) (e : UploadError E)
    (hrm : env.removeFails = false) (h0 : fs filename = none)
    (herr : (stream_to_file env s filename fs).1 = Outcome.err e) :
    (stream_to_file env s filename fs).2.1 filename = none ∧
    ((e = UploadError.Server IoOp.create ∧ (stream_to_file env s filename fs).2.2 = s)
     ∨ (∃ e0 pre, e = UploadError.Client e0 ∧
         s = pre ++ Except.error e0 :: (stream_to_file env s filename fs).2.2 ∧
         allOk pre = true)
     ∨ (∃ c pre, e = UploadError.Server IoOp.write ∧
         s = pre ++ Except.ok c :: (stream_to_file env s filename fs).2.2 ∧
         allOk pre = true)
     ∨ (e = UploadError.Server IoOp.flush ∧ (stream_to_file env s filename fs).2.2 = [])) := by
  by_cases hcf : env.createFails = true
  · have hU : stream_to_file env s filename fs
        = (Outcome.err (UploadError.Server IoOp.create), fs, s) := by
      simp [stream_to_file, hcf]
    rw [hU] at herr ⊢
    refine ⟨h0, Or.inl ⟨?_, rfl⟩⟩
    exact (Outcome.err.inj herr).symm
  · rw [Bool.not_eq_true] at hcf
    rcases hsw : stream_to_writer env.writeFails env.flushFails s 0 [] with ⟨r, acc, rem⟩
    cases r with
    | ok u =>
      have hU : stream_to_file env s filename fs = (Outcome.ok (), fsSet fs filename acc, rem) := by
        simp [stream_to_file, hcf, hsw]
      rw [hU] at herr
      exact absurd herr (by simp)
    | error e1 =>
      have hU : stream_to_file env s filename fs = (Outcome.err e1, fsRemove fs filename, rem) := by
        simp [stream_to_file, hcf, hsw, hrm]
      rw [hU] at herr ⊢
      have he : e1 = e := Outcome.err.inj herr
      subst he
      refine ⟨by simp [fsRemove], ?_⟩
      rcases stream_to_writer_err env.writeFails env.flushFails s 0 [] e1 acc rem hsw with
        ⟨e0, pre, h1, h2, h3⟩ | ⟨c, pre, h1, h2, h3⟩ | ⟨h1, h2⟩
      · exact Or.inr (Or.inl ⟨e0, pre, h1, by simpa using h2, h3⟩)
      · exact Or.inr (Or.inr (Or.inl ⟨c, pre, h1, by simpa using h2, h3⟩))
      · exact Or.inr (Or.inr (Or.inr ⟨h1, by simpa using h2⟩))

theorem C5_stream_to_file_failure_witness :
    (stream_to_file envGood
      ([Except.ok ([9] : Chunk), Except.error (), Except.ok [1]] : List (Except Unit Chunk))
      ("up/f.tmp".toList) fsEmpty).2.1 ("up/f.tmp".toList) = none ∧
    ((UploadError.Client () = UploadError.Server IoOp.create ∧
       (stream_to_file envGood
         ([Except.ok ([9] : Chunk), Except.error (), Except.ok [1]] : List (Except Unit Chunk))
         ("up/f.tmp".toList) fsEmpty).2.2
         = ([Except.ok ([9] : Chunk), Except.error (), Except.ok [1]] : List (Except Unit Chunk)))
     ∨ (∃ e0 pre, UploadError.Client () = UploadError.Client e0 ∧
         ([Except.ok ([9] : Chunk), Except.error (), Except.ok [1]] : List (Except Unit Chunk))
           = pre ++ Except.error e0 :: (stream_to_file envGood
             ([Except.ok ([9] : Chunk), Except.error (), Except.ok [1]]
               : List (Except Unit Chunk)) ("up/f.tmp".toList) fsEmpty).2.2 ∧
         allOk pre = true)
     ∨ (∃ c pre, UploadError.Client () = UploadError.Server IoOp.write ∧
         ([Except.ok ([9] : Chunk), Except.error (), Except.ok [1]] : List (Except Unit Chunk))
           = pre ++ Except.ok c :: (stream_to_file envGood
             ([Except.ok ([9] : Chunk), Except.error (), Except.ok [1]]
               : List (Except Unit Chunk)) ("up/f.tmp".toList) fsEmpty).2.2 ∧
         allOk pre = true)
     ∨ (UploadError.Client () = UploadError.Server IoOp.flush ∧
         (stream_to_file envGood
           ([Except.ok ([9] : Chunk), Except.error (), Except.ok [1]]
             : List (Except Unit Chunk)) ("up/f.tmp".toList) fsEmpty).2.2 = [])) :=
  C5_stream_to_file_failure envGood _ _ fsEmpty (UploadError.Client ()) rfl rfl (by decide)

/-! ### Claim C6 -/

/-- **C6**: `fetch_image` returns `Err(ServerReturnedError)` whenever the
HTTP response status is non-success, and `Err(UnsupportedMediaType)`
whenever (the status being success) the `Content-Type` header is absent,
not parseable as a string, or not in the resolver's allow-list; in both
cases the ingestion pipeline is never invoked — the filesystem comes back
untouched. -/
theorem C6_fetch_image_rejections (env : Env) (resp : HttpResponse) (dir : FsPath) (fs : FS) :
    (resp.success = false →
      fetch_image env (Except.ok resp) dir fs
        = (Outcome.err (FailureError.fetch FetchError.ServerReturnedError), fs))
    ∧ (resp.success = true →
        (resp.contentType = none
          ∨ (∃ u, resp.contentType = some (Except.error u))
          ∨ (∃ m, resp.contentType = some (Except.ok m) ∧ mime_type_to_extension m = none)) →
        fetch_image env (Except.ok resp) dir fs
          = (Outcome.err (FailureError.fetch FetchError.UnsupportedMediaType), fs)) := by
  constructor
  · intro hsucc
    simp [fetch_image, hsucc]
  · intro hsucc hct
    rcases hct with h | ⟨u, h⟩ | ⟨m, h, hm⟩
    · simp [fetch_image, hsucc, h]
    · simp [fetch_image, hsucc, h]
    · simp [fetch_image, hsucc, h, hm]

/-- An upstream response with a non-success status. -/
def resp404 : HttpResponse :=
  { success := false, contentType := some (Except.ok ("image/png".toList)), body := [] }

/-- An upstream response with a success status but a `Content-Type`
outside the allow-list. -/
def respPdf : HttpResponse :=
  { success := true, contentType := some (Except.ok ("application/pdf".toList)), body := [] }

theorem C6_fetch_image_rejections_witness :
    fetch_image envGood (Except.ok resp404) ("up".toList) fsEmpty
      = (Outcome.err (FailureError.fetch FetchError.ServerReturnedError), fsEmpty)
    ∧ fetch_image envGood (Except.ok respPdf) ("up".toList) fsEmpty
      = (Outcome.err (FailureError.fetch FetchError.UnsupportedMediaType), fsEmpty) :=
  ⟨(C6_fetch_image_rejections envGood resp404 ("up".toList) fsEmpty).1 rfl,
   (C6_fetch_image_rejections envGood respPdf ("up".toList) fsEmpty).2 rfl
     (Or.inr (Or.inr ⟨("application/pdf".toList), rfl, by decide⟩))⟩

/-! ### Claim C7 -/

/-- **C7**: `mime_type_to_extension` maps exactly `image/bmp` to `bmp`,
`image/jpeg` to `jpg` and `image/png` to `png`, returns `None` for every
other input string, and (being a pure function) gives the same result on
repeated calls. -/
theorem C7_mime_map (m : FsPath) :
    mime_type_to_extension ("image/bmp".toList) = some ("bmp".toList)
    ∧ mime_type_to_extension ("image/jpeg".toList) = some ("jpg".toList)
    ∧ mime_type_to_extension ("image/png".toList) = some ("png".toList)
    ∧ (m ≠ ("image/bmp".toList) → m ≠ ("image/jpeg".toList) → m ≠ ("image/png".toList) →
        mime_type_to_extension m = none)
    ∧ mime_type_to_extension m = mime_type_to_extension m := by
  refine ⟨by decide, by decide, by decide, ?_, rfl⟩
  intro h1 h2 h3
  unfold mime_type_to_extension
  rw [if_neg h1, if_neg h2, if_neg h3]

theorem C7_mime_map_witness :
    mime_type_to_extension ("text/plain".toList) = none :=
  ((C7_mime_map ("text/plain".toList)).2.2.2.1) (by decide) (by decide) (by decide)

/-! ### Claim C10 -/

/-- **C10**: `mime_type_to_extension` matches its input exactly and
`fetch_image` hands it the raw `Content-Type` value unparsed, so every
header value carrying parameters (i.e. containing a `;`) is rejected by
`fetch_image` with `UnsupportedMediaType`; the multipart path, which
resolves `essence_str` (parameters stripped), accepts the same type. -/
theorem C10_params_mismatch :
    (∀ (env : Env) (dir : FsPath) (fs : FS) (resp : HttpResponse) (a b : FsPath),
      resp.success = true →
      resp.contentType = some (Except.ok (a ++ ';' :: b)) →
      fetch_image env (Except.ok resp) dir fs
        = (Outcome.err (FailureError.fetch FetchError.UnsupportedMediaType), fs))
    ∧ essence_str ("image/png; charset=utf-8".toList) = ("image/png".toList)
    ∧ mime_type_to_extension (essence_str ("image/png; charset=utf-8".toList))
        = some ("png".toList)
    ∧ mime_type_to_extension ("image/png; charset=utf-8".toList) = none
    ∧ (upload_multipart (fun _ => envGood) ("up".toList)
        [Except.ok { contentType := "image/png; charset=utf-8".toList,
                     stream := [Except.ok ([7] : Chunk)] }] fsEmpty).1
      = HandlerResult.resp { status := HttpStatus.ok, body := [envGood.id] } := by
  refine ⟨?_, by decide, by decide, by decide, by decide⟩
  intro env dir fs resp a b hsucc hct
  have hsemi : ';' ∈ a ++ ';' :: b := by simp
  have h1 : a ++ ';' :: b ≠ ("image/bmp".toList) := by
    intro hEq; rw [hEq] at hsemi; revert hsemi; decide
  have h2 : a ++ ';' :: b ≠ ("image/jpeg".toList) := by
    intro hEq; rw [hEq] at hsemi; revert hsemi; decide
  have h3 : a ++ ';' :: b ≠ ("image/png".toList) := by
    intro hEq; rw [hEq] at hsemi; revert hsemi; decide
  have hm : mime_type_to_extension (a ++ ';' :: b) = none := by
    unfold mime_type_to_extension
    rw [if_neg h1, if_neg h2, if_neg h3]
  simp [fetch_image, hsucc, hct, hm]

/-- An upstream response whose `Content-Type` carries parameters. -/
def respParams : HttpResponse :=
  { success := true,
    contentType := some (Except.ok (("image/png".toList) ++ ';' :: (" charset=utf-8".toList))),
    body := [] }

theorem C10_params_mismatch_witness :
    fetch_image envGood (Except.ok respParams) ("up".toList) fsEmpty
      = (Outcome.err (FailureError.fetch FetchError.UnsupportedMediaType), fsEmpty) :=
  (C10_params_mismatch).1 envGood ("up".toList) fsEmpty respParams ("image/png".toList)
    (" charset=utf-8".toList) rfl rfl

/-! ### Claim C9: batch processing machinery

To state C9 the loop body of each handler is isolated as a step
function: `some (file, fs)` when the item is ingested, `none` when the
handler would answer with an error response (or panic). -/

/-- One iteration of the `upload_multipart` loop body on a field. -/
def multipartStep (env : Env) (dir : FsPath) (field : Field) (fs : FS) :
    Option (UploadedFile × FS) :=
  match mime_type_to_extension (essence_str field.contentType) with
  | none => none
  | some extension =>
    match upload_image env field.stream dir extension fs with
    | (Outcome.ok f, fs1, _) => some (f, fs1)
    | _ => none

/-- The uploaded files produced by a run of the multipart loop in which
every item succeeds (`none` when some item does not succeed). -/
def multipartRunFiles (envs : Nat → Env) (dir : FsPath) :
    List Field → Nat → FS → Option (List UploadedFile)
  | [], _, _ => some []
  | f :: r, i, fs =>
    match multipartStep (envs i) dir f fs with
    | none => none
    | some (uf, fs1) =>
      match multipartRunFiles envs dir r (i + 1) fs1 with
      | none => none
      | some l => some (uf :: l)

/-- The filesystem after a fully successful run of the multipart loop. -/
def multipartRunFS (envs : Nat → Env) (dir : FsPath) :
    List Field → Nat → FS → FS
  | [], _, fs => fs
  | f :: r, i, fs =>
    match multipartStep (envs i) dir f fs with
    | none => fs
    | some (_, fs1) => multipartRunFS envs dir r (i + 1) fs1

/-- The filesystem after the loop body processed one field (whether or
not the field was ingested). -/
def multipartStepFS (env : Env) (dir : FsPath) (field : Field) (fs : FS) : FS :=
  match mime_type_to_extension (essence_str field.contentType) with
  | none => fs
  | some extension => (upload_image env field.stream dir extension fs).2.1

/-- The field makes the loop answer with an error response: its content
type does not resolve, or its ingestion returns `Err` (a panic is not a
response at all). -/
def multipartStepFails (env : Env) (dir : FsPath) (field : Field) (fs : FS) : Prop :=
  mime_type_to_extension (essence_str field.contentType) = none
  ∨ (∃ extension e, mime_type_to_extension (essence_str field.contentType) = some extension
      ∧ (upload_image env field.stream dir extension fs).1 = Outcome.err e)

theorem multipartStep_some (env : Env) (dir : FsPath) (field : Field) (fs : FS)
    (uf : UploadedFile) (fs1 : FS)
    (h : multipartStep env dir field fs = some (uf, fs1)) :
    ∃ extension rem, mime_type_to_extension (essence_str field.contentType) = some extension
      ∧ upload_image env field.stream dir extension fs = (Outcome.ok uf, fs1, rem) := by
  rcases hm : mime_type_to_extension (essence_str field.contentType) with _ | extension
  · simp [multipartStep, hm] at h
  · simp only [multipartStep, hm] at h
    rcases hu : upload_image env field.stream dir extension fs with ⟨o, fs2, rem⟩
    rw [hu] at h
    cases o with
    | ok f =>
      simp at h
      exact ⟨extension, rem, rfl, by rw [hu, h.1, h.2]⟩
    | err e => simp at h
    | panicked => simp at h

/-- An `Err` return of `upload_image` changes the filesystem at most at
the temp path of its own id. -/
theorem upload_image_err_fs (env : Env) (s : List (Except E Chunk)) (dir ext : FsPath)
    (fs : FS) (e : UploadError E)
    (h : (upload_image env s dir ext fs).1 = Outcome.err e) :
    ∀ p, (upload_image env s dir ext fs).2.1 p ≠ fs p →
      p = setExtension (pathPush dir env.id) tmpExt := by
  intro p hp
  by_cases hcf : env.createFails = true
  · have hU : upload_image env s dir ext fs
        = (Outcome.err (UploadError.Server IoOp.create), fs, s) := by
      simp [upload_image, stream_to_file, hcf]
    rw [hU] at hp
    exact absurd rfl hp
  · rw [Bool.not_eq_true] at hcf
    rcases hsw : stream_to_writer env.writeFails env.flushFails s 0 [] with ⟨r, acc, rem⟩
    cases r with
    | ok u =>
      have h1 : ∀ e' : UploadError E, (upload_image env s dir ext fs).1 ≠ Outcome.err e' := by
        intro e'
        by_cases hrf : env.renameFails = true
        · simp [upload_image, stream_to_file, hcf, hsw, hrf]
        · rw [Bool.not_eq_true] at hrf
          cases hto : env.thumbOutcome <;>
            simp [upload_image, stream_to_file, hcf, hsw, hrf, hto]
      exact absurd h (h1 e)
    | error e1 =>
      by_cases hrm : env.removeFails = true
      · have h1 : (upload_image env s dir ext fs).1 = Outcome.panicked := by
          simp [upload_image, stream_to_file, hcf, hsw, hrm]
        rw [h1] at h
        exact absurd h (by simp)
      · rw [Bool.not_eq_true] at hrm
        have hU : upload_image env s dir ext fs
            = (Outcome.err e1,
               fsRemove fs (setExtension (pathPush dir env.id) tmpExt), rem) := by
          simp [upload_image, stream_to_file, hcf, hsw, hrm]
        rw [hU] at hp
        by_contra hne
        exact hp (by simp [fsRemove, hne])

/-- On a failing field, the loop body changes the filesystem at most at
the temp path of the id generated for that field. -/
theorem multipartStepFS_diff (env : Env) (dir : FsPath) (field : Field) (fs : FS)
    (hfail : multipartStepFails env dir field fs) :
    ∀ p, multipartStepFS env dir field fs p ≠ fs p →
      p = setExtension (pathPush dir env.id) tmpExt := by
  intro p hp
  rcases hfail with hm | ⟨ext, e, hm, he⟩
  · unfold multipartStepFS at hp
    rw [hm] at hp
    exact absurd rfl hp
  · unfold multipartStepFS at hp
    rw [hm] at hp
    exact upload_image_err_fs env field.stream dir ext fs e he p hp

/-- Processing a fully successful prefix advances the loop to the rest
of the items with the produced files appended. -/
theorem upload_multipart_go_run (envs : Nat → Env) (dir : FsPath) :
    ∀ (pre : List Field) (k : List (Except Unit Field)) (i : Nat)
      (acc : List UploadedFile) (fs : FS) (files : List UploadedFile),
      multipartRunFiles envs dir pre i fs = some files →
      upload_multipart_go envs dir (pre.map Except.ok ++ k) i acc fs
        = upload_multipart_go envs dir k (i + pre.length) (acc ++ files)
            (multipartRunFS envs dir pre i fs) := by
  intro pre
  induction pre with
  | nil =>
    intro k i acc fs files h
    simp [multipartRunFiles] at h
    subst h
    simp [multipartRunFS]
  | cons f r ih =>
    intro k i acc fs files h
    rcases hstep : multipartStep (envs i) dir f fs with _ | ⟨uf, fs1⟩
    · simp [multipartRunFiles, hstep] at h
    · simp only [multipartRunFiles, hstep] at h
      rcases hrest : multipartRunFiles envs dir r (i + 1) fs1 with _ | l
      · rw [hrest] at h; simp at h
      · rw [hrest] at h
        simp at h
        obtain ⟨ext, rem, hm, hu⟩ := multipartStep_some (envs i) dir f fs uf fs1 hstep
        have hgo : upload_multipart_go envs dir ((f :: r).map Except.ok ++ k) i acc fs
            = upload_multipart_go envs dir (r.map Except.ok ++ k) (i + 1) (acc ++ [uf]) fs1 := by
          simp [upload_multipart_go, hm, hu]
        rw [hgo, ih k (i + 1) (acc ++ [uf]) fs1 l hrest]
        rw [show multipartRunFS envs dir (f :: r) i fs
            = multipartRunFS envs dir r (i + 1) fs1 by rw [multipartRunFS, hstep]]
        rw [← h]
        simp [List.append_assoc, Nat.add_comm, Nat.add_assoc, Nat.add_left_comm]

/-- A failing field stops the loop with an error response carrying
exactly the ids accumulated so far, whatever the remaining items are. -/
theorem upload_multipart_go_fail_head (envs : Nat → Env) (dir : FsPath) (bad : Field)
    (rest : List (Except Unit Field)) (i : Nat) (acc : List UploadedFile) (fs : FS)
    (hfail : multipartStepFails (envs i) dir bad fs) :
    ∃ st, st ≠ HttpStatus.ok ∧
      upload_multipart_go envs dir (Except.ok bad :: rest) i acc fs
        = (HandlerResult.resp { status := st, body := uploaded_files_to_json_list acc },
           multipartStepFS (envs i) dir bad fs) := by
  rcases hfail with hm | ⟨ext, e, hm, he⟩
  · exact ⟨HttpStatus.unsupportedMediaType, by decide,
      by simp [upload_multipart_go, multipartStepFS, hm]⟩
  · rcases hu : upload_image (envs i) bad.stream dir ext fs with ⟨o, fs1, rem⟩
    rw [hu] at he
    cases o with
    | ok f => simp at he
    | panicked => simp at he
    | err e1 =>
      cases e1 with
      | Client ce =>
        exact ⟨HttpStatus.badRequest, by decide,
          by simp [upload_multipart_go, multipartStepFS, hm, hu]⟩
      | Server op =>
        exact ⟨HttpStatus.internalServerError, by decide,
          by simp [upload_multipart_go, multipartStepFS, hm, hu]⟩

/-- One iteration of the `upload_json` loop body on an item. -/
def jsonStep (env : Env) (sniff : List Byte → FsPath) (dir : FsPath) (item : UploadRequest)
    (fs : FS) : Option (UploadedFile × FS) :=
  match item with
  | UploadRequest.url send =>
    match fetch_image env send dir fs with
    | (Outcome.ok f, fs1) => some (f, fs1)
    | _ => none
  | UploadRequest.base64 dec =>
    match dec with
    | Except.error _ => none
    | Except.ok data =>
      match mime_type_to_extension (sniff data) with
      | none => none
      | some extension =>
        match upload_image env ([Except.ok data] : List (Except Unit Chunk)) dir extension fs with
        | (Outcome.ok f, fs1, _) => some (f, fs1)
        | _ => none

def jsonRunFiles (envs : Nat → Env) (sniff : List Byte → FsPath) (dir : FsPath) :
    List UploadRequest → Nat → FS → Option (List UploadedFile)
  | [], _, _ => some []
  | it :: r, i, fs =>
    match jsonStep (envs i) sniff dir it fs with
    | none => none
    | some (uf, fs1) =>
      match jsonRunFiles envs sniff dir r (i + 1) fs1 with
      | none => none
      | some l => some (uf :: l)

def jsonRunFS (envs : Nat → Env) (sniff : List Byte → FsPath) (dir : FsPath) :
    List UploadRequest → Nat → FS → FS
  | [], _, fs => fs
  | it :: r, i, fs =>
    match jsonStep (envs i) sniff dir it fs with
    | none => fs
    | some (_, fs1) => jsonRunFS envs sniff dir r (i + 1) fs1

/-- The filesystem after the `upload_json` loop body processed one item. -/
def jsonStepFS (env : Env) (sniff : List Byte → FsPath) (dir : FsPath) (item : UploadRequest)
    (fs : FS) : FS :=
  match item with
  | UploadRequest.url send => (fetch_image env send dir fs).2
  | UploadRequest.base64 dec =>
    match dec with
    | Except.error _ => fs
    | Except.ok data =>
      match mime_type_to_extension (sniff data) with
      | none => fs
      | some extension =>
        (upload_image env ([Except.ok data] : List (Except Unit Chunk)) dir extension fs).2.1

/-- The item makes the `upload_json` loop answer with an error response:
its fetch or ingestion returns `Err`, its base64 payload does not decode,
or its sniffed content type does not resolve. -/
def jsonStepFails (env : Env) (sniff : List Byte → FsPath) (dir : FsPath) (item : UploadRequest)
    (fs : FS) : Prop :=
  match item with
  | UploadRequest.url send => ∃ e, (fetch_image env send dir fs).1 = Outcome.err e
  | UploadRequest.base64 dec =>
    match dec with
    | Except.error _ => True
    | Except.ok data =>
      mime_type_to_extension (sniff data) = none
      ∨ ∃ extension e, mime_type_to_extension (sniff data) = some extension
          ∧ (upload_image env ([Except.ok data] : List (Except Unit Chunk)) dir extension fs).1
              = Outcome.err e

theorem jsonStep_some (env : Env) (sniff : List Byte → FsPath) (dir : FsPath)
    (item : UploadRequest) (fs : FS) (uf : UploadedFile) (fs1 : FS)
    (h : jsonStep env sniff dir item fs = some (uf, fs1)) :
    (∃ send, item = UploadRequest.url send
      ∧ fetch_image env send dir fs = (Outcome.ok uf, fs1))
    ∨ (∃ data extension rem, item = UploadRequest.base64 (Except.ok data)
        ∧ mime_type_to_extension (sniff data) = some extension
        ∧ upload_image env ([Except.ok data] : List (Except Unit Chunk)) dir extension fs
            = (Outcome.ok uf, fs1, rem)) := by
  cases item with
  | url send =>
    left
    refine ⟨send, rfl, ?_⟩
    simp only [jsonStep] at h
    rcases hf : fetch_image env send dir fs with ⟨o, fs2⟩
    rw [hf] at h
    cases o with
    | ok f =>
      simp at h
      rw [h.1, h.2]
    | err e => simp at h
    | panicked => simp at h
  | base64 dec =>
    cases dec with
    | error u => simp [jsonStep] at h
    | ok data =>
      right
      rcases hm : mime_type_to_extension (sniff data) with _ | extension
      · simp [jsonStep, hm] at h
      · simp only [jsonStep, hm] at h
        rcases hu : upload_image env ([Except.ok data] : List (Except Unit Chunk)) dir
          extension fs with ⟨o, fs2, rem⟩
        rw [hu] at h
        cases o with
        | ok f =>
          simp at h
          exact ⟨data, extension, rem, rfl, hm, by rw [hu, h.1, h.2]⟩
        | err e => simp at h
        | panicked => simp at h

/-- An `Err` return of `fetch_image` changes the filesystem at most at
the temp path of its own id. -/
theorem fetch_image_err_fs (env : Env) (send : Except Unit HttpResponse) (dir : FsPath)
    (fs : FS) (e : FailureError Unit)
    (h : (fetch_image env send dir fs).1 = Outcome.err e) :
    ∀ p, (fetch_image env send dir fs).2 p ≠ fs p →
      p = setExtension (pathPush dir env.id) tmpExt := by
  intro p hp
  cases send with
  | error u => simp [fetch_image] at hp
  | ok resp =>
    by_cases hsucc : resp.success = false
    · simp [fetch_image, hsucc] at hp
    · rw [Bool.not_eq_false] at hsucc
      rcases hct : resp.contentType with _ | ct
      · simp [fetch_image, hsucc, hct] at hp
      · cases ct with
        | error u => simp [fetch_image, hsucc, hct] at hp
        | ok m =>
          rcases hm : mime_type_to_extension m with _ | ext
          · simp [fetch_image, hsucc, hct, hm] at hp
          · rcases hu : upload_image env resp.body dir ext fs with ⟨o, fs1, rem⟩
            cases o with
            | ok f =>
              have h1 : (fetch_image env (Except.ok resp) dir fs).1 = Outcome.ok f := by
                simp [fetch_image, hsucc, hct, hm, hu]
              rw [h1] at h
              simp at h
            | panicked =>
              have h1 : (fetch_image env (Except.ok resp) dir fs).1 = Outcome.panicked := by
                simp [fetch_image, hsucc, hct, hm, hu]
              rw [h1] at h
              simp at h
            | err e1 =>
              have hU : fetch_image env (Except.ok resp) dir fs
                  = (Outcome.err (FailureError.upload e1), fs1) := by
                simp [fetch_image, hsucc, hct, hm, hu]
              rw [hU] at hp
              have he1 : (upload_image env resp.body dir ext fs).1 = Outcome.err e1 := by
                rw [hu]
              exact upload_image_err_fs env resp.body dir ext fs e1 he1 p
                (by rw [hu]; exact hp)

/-- On a failing item, the `upload_json` loop body changes the
filesystem at most at the temp path of the id generated for that item. -/
theorem jsonStepFS_diff (env : Env) (sniff : List Byte → FsPath) (dir : FsPath)
    (item : UploadRequest) (fs : FS)
    (hfail : jsonStepFails env sniff dir item fs) :
    ∀ p, jsonStepFS env sniff dir item fs p ≠ fs p →
      p = setExtension (pathPush dir env.id) tmpExt := by
  intro p hp
  cases item with
  | url send =>
    simp only [jsonStepFails] at hfail
    obtain ⟨e, he⟩ := hfail
    exact fetch_image_err_fs env send dir fs e he p hp
  | base64 dec =>
    cases dec with
    | error u => simp [jsonStepFS] at hp
    | ok data =>
      simp only [jsonStepFails] at hfail
      rcases hfail with hm | ⟨ext, e, hm, he⟩
      · simp [jsonStepFS, hm] at hp
      · simp only [jsonStepFS, hm] at hp
        exact upload_image_err_fs env _ dir ext fs e he p hp

theorem upload_json_go_run (envs : Nat → Env) (sniff : List Byte → FsPath) (dir : FsPath) :
    ∀ (pre k : List UploadRequest) (i : Nat) (acc : List UploadedFile) (fs : FS)
      (files : List UploadedFile),
      jsonRunFiles envs sniff dir pre i fs = some files →
      upload_json_go envs sniff dir (pre ++ k) i acc fs
        = upload_json_go envs sniff dir k (i + pre.length) (acc ++ files)
            (jsonRunFS envs sniff dir pre i fs) := by
  intro pre
  induction pre with
  | nil =>
    intro k i acc fs files h
    simp [jsonRunFiles] at h
    subst h
    simp [jsonRunFS]
  | cons it r ih =>
    intro k i acc fs files h
    rcases hstep : jsonStep (envs i) sniff dir it fs with _ | ⟨uf, fs1⟩
    · simp [jsonRunFiles, hstep] at h
    · simp only [jsonRunFiles, hstep] at h
      rcases hrest : jsonRunFiles envs sniff dir r (i + 1) fs1 with _ | l
      · rw [hrest] at h; simp at h
      · rw [hrest] at h
        simp at h
        rcases jsonStep_some (envs i) sniff dir it fs uf fs1 hstep with
          ⟨send, hitem, hf⟩ | ⟨data, ext, rem, hitem, hm, hu⟩
        · subst hitem
          have hgo : upload_json_go envs sniff dir ((UploadRequest.url send :: r) ++ k) i acc fs
              = upload_json_go envs sniff dir (r ++ k) (i + 1) (acc ++ [uf]) fs1 := by
            simp [upload_json_go, hf]
          rw [hgo, ih k (i + 1) (acc ++ [uf]) fs1 l hrest]
          rw [show jsonRunFS envs sniff dir (UploadRequest.url send :: r) i fs
              = jsonRunFS envs sniff dir r (i + 1) fs1 by rw [jsonRunFS, hstep]]
          rw [← h]
          simp [List.append_assoc, Nat.add_comm, Nat.add_assoc, Nat.add_left_comm]
        · subst hitem
          have hgo : upload_json_go envs sniff dir
                ((UploadRequest.base64 (Except.ok data) :: r) ++ k) i acc fs
              = upload_json_go envs sniff dir (r ++ k) (i + 1) (acc ++ [uf]) fs1 := by
            simp [upload_json_go, hm, hu]
          rw [hgo, ih k (i + 1) (acc ++ [uf]) fs1 l hrest]
          rw [show jsonRunFS envs sniff dir (UploadRequest.base64 (Except.ok data) :: r) i fs
              = jsonRunFS envs sniff dir r (i + 1) fs1 by rw [jsonRunFS, hstep]]
          rw [← h]
          simp [List.append_assoc, Nat.add_comm, Nat.add_assoc, Nat.add_left_comm]

theorem upload_json_go_fail_head (envs : Nat → Env) (sniff : List Byte → FsPath) (dir : FsPath)
    (bad : UploadRequest) (rest : List UploadRequest) (i : Nat) (acc : List UploadedFile)
    (fs : FS) (hfail : jsonStepFails (envs i) sniff dir bad fs) :
    ∃ st, st ≠ HttpStatus.ok ∧
      upload_json_go envs sniff dir (bad :: rest) i acc fs
        = (HandlerResult.resp { status := st, body := uploaded_files_to_json_list acc },
           jsonStepFS (envs i) sniff dir bad fs) := by
  cases bad with
  | url send =>
    simp only [jsonStepFails] at hfail
    obtain ⟨e, he⟩ := hfail
    rcases hf : fetch_image (envs i) send dir fs with ⟨o, fs1⟩
    rw [hf] at he
    cases o with
    | ok f => simp at he
    | panicked => simp at he
    | err e1 =>
      cases e1 with
      | fetch fe =>
        exact ⟨HttpStatus.internalServerError, by decide,
          by simp [upload_json_go, jsonStepFS, hf]⟩
      | upload ue =>
        cases ue with
        | Client ce =>
          exact ⟨HttpStatus.badRequest, by decide,
            by simp [upload_json_go, jsonStepFS, hf]⟩
        | Server op =>
          exact ⟨HttpStatus.internalServerError, by decide,
            by simp [upload_json_go, jsonStepFS, hf]⟩
  | base64 dec =>
    cases dec with
    | error u =>
      exact ⟨HttpStatus.badRequest, by decide, by simp [upload_json_go, jsonStepFS]⟩
    | ok data =>
      simp only [jsonStepFails] at hfail
      rcases hfail with hm | ⟨ext, e, hm, he⟩
      · exact ⟨HttpStatus.unsupportedMediaType, by decide,
          by simp [upload_json_go, jsonStepFS, hm]⟩
      · rcases hu : upload_image (envs i) ([Except.ok data] : List (Except Unit Chunk)) dir
          ext fs with ⟨o, fs1, rem⟩
        rw [hu] at he
        cases o with
        | ok f => simp at he
        | panicked => simp at he
        | err e1 =>
          cases e1 with
          | Client ce =>
            exact ⟨HttpStatus.badRequest, by decide,
              by simp [upload_json_go, jsonStepFS, hm, hu]⟩
          | Server op =>
            exact ⟨HttpStatus.internalServerError, by decide,
              by simp [upload_json_go, jsonStepFS, hm, hu]⟩

/-- **C9**: in both batch endpoints (multipart and JSON), items are
processed sequentially in request order and processing stops at the first
failing item: the handler answers immediately with an error response
whose JSON body still lists the ids of the items committed before it
(whatever the items after the failing one are — they are never
attempted), and those earlier artifacts are not rolled back: the final
filesystem differs from the one reached after the successful prefix at
most at the failing item's own temp path. -/
theorem C9_batch_first_failure :
    (∀ (envs : Nat → Env) (dir : FsPath) (pre : List Field) (files : List UploadedFile)
       (bad : Field) (rest : List (Except Unit Field)) (fs : FS),
      multipartRunFiles envs dir pre 0 fs = some files →
      multipartStepFails (envs pre.length) dir bad (multipartRunFS envs dir pre 0 fs) →
      ∃ st, st ≠ HttpStatus.ok ∧
        upload_multipart envs dir (pre.map Except.ok ++ Except.ok bad :: rest) fs
          = (HandlerResult.resp { status := st, body := uploaded_files_to_json_list files },
             multipartStepFS (envs pre.length) dir bad (multipartRunFS envs dir pre 0 fs)) ∧
        ∀ p, multipartStepFS (envs pre.length) dir bad (multipartRunFS envs dir pre 0 fs) p
            ≠ multipartRunFS envs dir pre 0 fs p →
          p = setExtension (pathPush dir (envs pre.length).id) tmpExt)
    ∧ (∀ (envs : Nat → Env) (sniff : List Byte → FsPath) (dir : FsPath)
         (pre : List UploadRequest) (files : List UploadedFile) (bad : UploadRequest)
         (rest : List UploadRequest) (fs : FS),
      jsonRunFiles envs sniff dir pre 0 fs = some files →
      jsonStepFails (envs pre.length) sniff dir bad (jsonRunFS envs sniff dir pre 0 fs) →
      ∃ st, st ≠ HttpStatus.ok ∧
        upload_json envs sniff dir (pre ++ bad :: rest) fs
          = (HandlerResult.resp { status := st, body := uploaded_files_to_json_list files },
             jsonStepFS (envs pre.length) sniff dir bad (jsonRunFS envs sniff dir pre 0 fs)) ∧
        ∀ p, jsonStepFS (envs pre.length) sniff dir bad (jsonRunFS envs sniff dir pre 0 fs) p
            ≠ jsonRunFS envs sniff dir pre 0 fs p →
          p = setExtension (pathPush dir (envs pre.length).id) tmpExt) := by
  constructor
  · intro envs dir pre files bad rest fs hrun hfail
    obtain ⟨st, hst, heq⟩ := upload_multipart_go_fail_head envs dir bad rest pre.length files
      (multipartRunFS envs dir pre 0 fs) hfail
    refine ⟨st, hst, ?_, multipartStepFS_diff _ _ _ _ hfail⟩
    unfold upload_multipart
    rw [upload_multipart_go_run envs dir pre (Except.ok bad :: rest) 0 [] fs files hrun]
    simpa using heq
  · intro envs sniff dir pre files bad rest fs hrun hfail
    obtain ⟨st, hst, heq⟩ := upload_json_go_fail_head envs sniff dir bad rest pre.length files
      (jsonRunFS envs sniff dir pre 0 fs) hfail
    refine ⟨st, hst, ?_, jsonStepFS_diff _ _ _ _ _ hfail⟩
    unfold upload_json
    rw [upload_json_go_run envs sniff dir pre (bad :: rest) 0 [] fs files hrun]
    simpa using heq

/-- A multipart form field declaring a supported content type. -/
def fieldPng : Field :=
  { contentType := "image/png".toList, stream := [Except.ok ([7] : Chunk)] }

/-- A multipart form field declaring an unsupported content type. -/
def fieldBad : Field :=
  { contentType := "text/plain".toList, stream := [] }

/-- The result record produced by ingesting `fieldPng` (or the equal
base64 item) under `envGood`. -/
def filesW : List UploadedFile :=
  [{ id := "abcdefghijkl".toList, path := "up/abcdefghijkl.png".toList,
     thumbnail_path := none }]

theorem C9_batch_first_failure_witness :
    (∃ st, st ≠ HttpStatus.ok ∧
      upload_multipart (fun _ => envGood) ("up".toList)
        ([fieldPng].map Except.ok ++ Except.ok fieldBad :: [Except.error ()]) fsEmpty
        = (HandlerResult.resp { status := st, body := uploaded_files_to_json_list filesW },
           multipartStepFS envGood ("up".toList) fieldBad
             (multipartRunFS (fun _ => envGood) ("up".toList) [fieldPng] 0 fsEmpty)) ∧
      ∀ p, multipartStepFS envGood ("up".toList) fieldBad
            (multipartRunFS (fun _ => envGood) ("up".toList) [fieldPng] 0 fsEmpty) p
          ≠ multipartRunFS (fun _ => envGood) ("up".toList) [fieldPng] 0 fsEmpty p →
        p = setExtension (pathPush ("up".toList) envGood.id) tmpExt)
    ∧ (∃ st, st ≠ HttpStatus.ok ∧
      upload_json (fun _ => envGood) (fun _ => ("image/png".toList)) ("up".toList)
        ([UploadRequest.base64 (Except.ok ([7] : List Byte))]
          ++ UploadRequest.base64 (Except.error ()) :: []) fsEmpty
        = (HandlerResult.resp { status := st, body := uploaded_files_to_json_list filesW },
           jsonStepFS envGood (fun _ => ("image/png".toList)) ("up".toList)
             (UploadRequest.base64 (Except.error ()))
             (jsonRunFS (fun _ => envGood) (fun _ => ("image/png".toList)) ("up".toList)
               [UploadRequest.base64 (Except.ok ([7] : List Byte))] 0 fsEmpty)) ∧
      ∀ p, jsonStepFS envGood (fun _ => ("image/png".toList)) ("up".toList)
            (UploadRequest.base64 (Except.error ()))
            (jsonRunFS (fun _ => envGood) (fun _ => ("image/png".toList)) ("up".toList)
              [UploadRequest.base64 (Except.ok ([7] : List Byte))] 0 fsEmpty) p
          ≠ jsonRunFS (fun _ => envGood) (fun _ => ("image/png".toList)) ("up".toList)
              [UploadRequest.base64 (Except.ok ([7] : List Byte))] 0 fsEmpty p →
        p = setExtension (pathPush ("up".toList) envGood.id) tmpExt) := by
  constructor
  · exact (C9_batch_first_failure).1 (fun _ => envGood) ("up".toList) [fieldPng] filesW
      fieldBad [Except.error ()] fsEmpty (by decide) (Or.inl (by decide))
  · exact (C9_batch_first_failure).2 (fun _ => envGood) (fun _ => ("image/png".toList))
      ("up".toList) [UploadRequest.base64 (Except.ok ([7] : List Byte))] filesW
      (UploadRequest.base64 (Except.error ())) [] fsEmpty (by decide) trivial

end RRApi
